import Mathlib

/-!
A verification development for the proxypdf streaming PDF writer
(`src/proxypdf/streamwriter.py`).

The Python writer is shallowly embedded here:

* byte strings become `List Nat` (one entry per byte; all emitted text is
  ASCII, so a character maps to its code point);
* floats become `ℚ`; the decimal rendering Python's `str` would produce is
  abstracted by the rational rendering `toString : ℚ → String`.  No claim
  below depends on the digits of a rendered number, only on byte positions
  being captured consistently, which holds for any definite rendering;
* the attributes of `StreamProxyWriter` become the fields of `WState`;
  mutation becomes explicit state passing;
* `zlib.compress` and `base64.a85encode` are external library collaborators,
  modelled as the two fields of a `Codec` parameter.  Their inverses appear
  only as hypotheses of the round-trip theorem;
* fallible operations (writing to a closed stream, accessing a deleted
  `_content` attribute) raise; `IndObj.write` returns its exception together
  with the object and sink as the exception leaves them (the source mutates
  both before raising), while the writer-level operations keep only the
  error, matching the abort-the-document failure semantics;
* `placedLog` and `imageLog` are observation-only history fields (the Python
  object keeps no such lists): `placedLog` records every placement ever made
  together with the index of the page it is flushed into, `imageLog` records
  the (mask, color) object-number pair of each `_add_image_form` call.  No
  operation reads them, so they do not influence the modelled behaviour.
-/

namespace ProxyPdf

/-- A byte string, one `Nat` per byte. -/
abbrev Bytes := List Nat

/-- ASCII encoding of a (pure ASCII) string, modelling `str.encode("ascii")`. -/
def asciiBytes (s : String) : Bytes := s.data.map Char.toNat

/-- Model of `b(v)` from the source for `str` arguments. -/
def bs (s : String) : Bytes := asciiBytes s

/-- Model of `b(v)` from the source for `int` arguments: `str(v).encode("ascii")`. -/
def bInt (n : Nat) : Bytes := asciiBytes (toString n)

/-- Model of `b(v)` from the source for `float` arguments (rendering abstracted
by the rational rendering, see the header comment). -/
def qb (q : ℚ) : Bytes := asciiBytes (toString q)

/-- The external stream codec collaborators used by `PdfStream.write`:
`zlib.compress` and `base64.a85encode`. -/
structure Codec where
  compress : Bytes → Bytes
  a85encode : Bytes → Bytes

/-- A trivial codec instance (identity compressor and encoder), used to
evaluate the model on concrete inputs. -/
def idCodec : Codec := ⟨id, id⟩

/-- Model of `PdfDict.write`: `<<\n` then one `    key value\n` line per entry (insertion
order preserved), then `>>\n`.  Entry values arrive already serialized. -/
def pdfDictBytes (entries : List (Bytes × Bytes)) : Bytes :=
  bs "<<\n" ++
    (entries.map (fun e => bs "    " ++ e.1 ++ bs " " ++ e.2 ++ bs "\n")).flatten ++
    bs ">>\n"

/-- Model of `PdfList.write`: `[ ` then each value followed by a space, then `]`. -/
def pdfListBytes (vs : List Bytes) : Bytes :=
  bs "[ " ++ (vs.map (fun v => v ++ bs " ")).flatten ++ bs "]"

/-- Model of `PdfStream.write`: the content is deflate-compressed then base-85 encoded;
the dictionary gets `/Filter [ /ASCII85Decode /FlateDecode ]` and `/Length`
(the byte length of the encoded payload) in front of the caller's entries,
then `stream\n`, the encoded payload, and `\nendstream\n` follow. -/
def pdfStreamBytes (C : Codec) (content : Bytes) (extra : List (Bytes × Bytes)) : Bytes :=
  pdfDictBytes
      ((bs "/Filter", pdfListBytes [bs "/ASCII85Decode", bs "/FlateDecode"]) ::
        (bs "/Length", bInt (C.a85encode (C.compress content)).length) :: extra) ++
    bs "stream\n" ++ C.a85encode (C.compress content) ++ bs "\nendstream\n"

/-- Model of `IndirectObject.reference`: `b(self.number) + b" 0 R"`. -/
def refBytes (n : Nat) : Bytes := bInt n ++ bs " 0 R"

/-- The header an indirect object write emits before its content:
`b(self.number)` followed by `" 0 obj\n"`. -/
def headerBytes (n : Nat) : Bytes := bInt n ++ bs " 0 obj\n"

/-- An offset entry of the cross-reference table:
`str(offset).rjust(10, "0")`. -/
def padOffset (n : Nat) : Bytes :=
  (List.replicate (10 - (toString n).length) '0' ++ (toString n).data).map Char.toNat

/-- Errors of the embedded writer: accessing a deleted `_content` attribute
(`AttributeError`) and writing to a closed stream (`ValueError`). -/
inductive WErr where
  | attributeError : WErr
  | streamClosed : WErr
deriving DecidableEq

/-- The output byte sink: the bytes written so far and whether `close()` has
been called.  `tell()` is `data.length`. -/
structure StreamSt where
  data : Bytes
  closed : Bool
deriving DecidableEq

/-- Model of `IndirectObject`: object number, captured byte offset, and the content,
which is `none` after `write` has deleted it (`del self._content`). -/
structure IndObj where
  number : Nat
  offset : Nat
  content : Option Bytes
deriving DecidableEq

/-- Model of `IndirectObject.write`: `stream.tell()` runs first, so a closed
stream raises (`ValueError`) before anything else happens; otherwise the byte
offset is recorded — clobbering any previously captured offset — and
`<number> 0 obj\n` is emitted before the content is touched, so writing an
object whose content was deleted emits the header again and only then raises
(`AttributeError`).  The error value carries the object and the sink exactly
as the escaping exception leaves them.  On success the content and
`endobj\n` follow and the content is deleted. -/
def IndObj.write (o : IndObj) (st : StreamSt) :
    Except (WErr × IndObj × StreamSt) (IndObj × StreamSt) :=
  if st.closed then .error (.streamClosed, o, st)
  else
    match o.content with
    | none =>
      .error (.attributeError, { o with offset := st.data.length },
              { st with data := st.data ++ headerBytes o.number })
    | some c =>
      .ok ({ o with offset := st.data.length, content := none },
           { st with data := st.data ++ (headerBytes o.number ++ c ++ bs "endobj\n") })

/-- One recorded card placement: the index of the page it belongs to, the
object number of the color XObject it references, and its lower-left corner. -/
structure Placement where
  page : Nat
  form : Nat
  x : ℚ
  y : ℚ
deriving DecidableEq

/-- A decoded image as consumed by `_add_image_form`: width, height, the
interleaved RGB plane (`image.convert("RGB").tobytes()`) and the alpha plane
(`image.getchannel("A").tobytes()`). -/
structure PdfImage where
  width : Nat
  height : Nat
  rgb : Bytes
  alpha : Bytes
deriving DecidableEq

/-- The state of a `StreamProxyWriter`.  `objects` is the registration-ordered
registry `self._objects`; its head is always the Pages-root object (registered
first by `open`, written last by `save`).  `placedLog` and `imageLog` are
observation-only histories (see the header comment). -/
structure WState where
  pageW : ℚ
  pageH : ℚ
  margin : ℚ
  cardMargin : ℚ
  closeStream : Bool
  stream : StreamSt
  counter : Nat
  objects : List IndObj
  rootNum : Nat
  pagesRootNum : Nat
  pages : List Nat
  cursor : ℚ × ℚ
  proxyPositions : List (Nat × ℚ × ℚ)
  placedLog : List Placement
  imageLog : List (Nat × Nat)
deriving DecidableEq

/-- Model of `reportlab.lib.units.inch`: 72 points. -/
def inch : ℚ := 72

/-- Model of `BaseProxyWriter._PROXY_WIDTH = 2.5 * inch`. -/
def PROXY_WIDTH : ℚ := 2.5 * inch

/-- Model of `BaseProxyWriter._PROXY_HEIGHT = 3.5 * inch`. -/
def PROXY_HEIGHT : ℚ := 3.5 * inch

/-- Model of `reportlab.lib.pagesizes.A4` (210 mm × 297 mm at 72 points per inch). -/
def A4 : ℚ × ℚ := (75600 / 127, 106920 / 127)

/-- Model of `StreamProxyWriter.__init__`: the margin argument is scaled by `inch`, then
clamped against the card width and afterwards against the card height (both
clamps mutate the same `self._margin_size`); the card margin is scaled by
`inch`; the cursor starts at `(margin, page_height - margin)`. -/
def mkWriter (pageSize : ℚ × ℚ) (marginSize cardMarginSize : ℚ) (closeStream : Bool) : WState :=
  let m0 := marginSize * inch
  let m1 := if m0 * 2 + PROXY_WIDTH > pageSize.1 then (pageSize.1 - PROXY_WIDTH) / 2 else m0
  let m2 := if m1 * 2 + PROXY_HEIGHT > pageSize.2 then (pageSize.2 - PROXY_HEIGHT) / 2 else m1
  { pageW := pageSize.1
    pageH := pageSize.2
    margin := m2
    cardMargin := cardMarginSize * inch
    closeStream := closeStream
    stream := ⟨[], false⟩
    counter := 0
    objects := []
    rootNum := 0
    pagesRootNum := 0
    pages := []
    cursor := (m2, pageSize.2 - m2)
    proxyPositions := []
    placedLog := []
    imageLog := [] }

/-- Model of `StreamProxyWriter._add_object`: assign the next object number, append the
object to the registry, and (when `write` is set) serialize it immediately.
Returns the assigned number with the new state. -/
def WState.addObject (w : WState) (content : Bytes) (write : Bool) :
    Except WErr (Nat × WState) :=
  let o : IndObj := ⟨w.counter + 1, 0, some content⟩
  if write then
    match o.write w.stream with
    | .error e => .error e.1
    | .ok (o', st') =>
      .ok (w.counter + 1,
           { w with counter := w.counter + 1, objects := w.objects ++ [o'], stream := st' })
  else
    .ok (w.counter + 1, { w with counter := w.counter + 1, objects := w.objects ++ [o] })

/-- The operator sequence of a page's content stream: an identity `cm` followed
by, for each pending placement, `q 180 0 0 252 <x> <y> cm /FormXob.<i> Do Q`,
joined with single spaces. -/
def contentOps (positions : List (Nat × ℚ × ℚ)) : Bytes :=
  bs "1 0 0 1 0 0 cm " ++
    (List.intersperse (bs " ")
      (positions.enum.map
        (fun p =>
          bs "q 180 0 0 252 " ++ qb p.2.2.1 ++ bs " " ++ qb p.2.2.2 ++
            bs " cm /FormXob." ++ bInt (p.1 + 1) ++ bs " Do Q"))).flatten

/-- The dictionary of a Page object built at flush time. -/
def pageDictBytes (pageW pageH : ℚ) (parentNum contentsNum : Nat)
    (positions : List (Nat × ℚ × ℚ)) : Bytes :=
  pdfDictBytes
    [(bs "/MediaBox", pdfListBytes [bInt 0, bInt 0, qb pageW, qb pageH]),
     (bs "/Type", bs "/Page"),
     (bs "/Parent", refBytes parentNum),
     (bs "/Contents", refBytes contentsNum),
     (bs "/Resources",
       pdfDictBytes
         [(bs "/ProcSet",
             pdfListBytes [bs "/PDF", bs "/Text", bs "/ImageB", bs "/ImageC", bs "/ImageI"]),
          (bs "/XObject",
             pdfDictBytes
               (positions.enum.map
                 (fun p => (bs "/FormXob." ++ bInt (p.1 + 1), refBytes p.2.1))))])]

/-- Model of `StreamProxyWriter._flush_page`: reset the cursor, register and write the
content stream object and then the Page object, append the page, and clear the
pending placements. -/
def WState.flushPage (C : Codec) (w : WState) : Except WErr WState :=
  let w := { w with cursor := (w.margin, w.pageH - w.margin) }
  match w.addObject (pdfStreamBytes C (contentOps w.proxyPositions) []) true with
  | .error e => .error e
  | .ok (csNum, w1) =>
    match w1.addObject
        (pageDictBytes w1.pageW w1.pageH w1.pagesRootNum csNum w1.proxyPositions) true with
    | .error e => .error e
    | .ok (pgNum, w2) =>
      .ok { w2 with pages := w2.pages ++ [pgNum], proxyPositions := [] }

/-- The dictionary of a mask (alpha) image XObject, entries in source order. -/
def maskDict (img : PdfImage) : List (Bytes × Bytes) :=
  [(bs "/BitsPerComponent", bs "8"),
   (bs "/ColorSpace", bs "/DeviceGray"),
   (bs "/Decode", pdfListBytes [bs "0", bs "1"]),
   (bs "/Height", bInt img.height),
   (bs "/Width", bInt img.width),
   (bs "/Subtype", bs "/Image"),
   (bs "/Type", bs "/XObject")]

/-- The dictionary of a color image XObject, entries in source order; `/SMask`
references the mask object. -/
def colorDict (img : PdfImage) (maskNum : Nat) : List (Bytes × Bytes) :=
  [(bs "/BitsPerComponent", bs "8"),
   (bs "/ColorSpace", bs "/DeviceRGB"),
   (bs "/Height", bInt img.height),
   (bs "/Width", bInt img.width),
   (bs "/Subtype", bs "/Image"),
   (bs "/Type", bs "/XObject"),
   (bs "/SMask", refBytes maskNum)]

/-- Model of `StreamProxyWriter._add_image_form`: register and write the mask stream
object (alpha plane), then register and write the color stream object (RGB
plane, `/SMask` pointing at the mask), and return the color object's number. -/
def WState.addImageForm (C : Codec) (w : WState) (img : PdfImage) :
    Except WErr (Nat × WState) :=
  match w.addObject (pdfStreamBytes C img.alpha (maskDict img)) true with
  | .error e => .error e
  | .ok (maskNum, w1) =>
    match w1.addObject (pdfStreamBytes C img.rgb (colorDict img maskNum)) true with
    | .error e => .error e
    | .ok (colorNum, w2) =>
      .ok (colorNum, { w2 with imageLog := w2.imageLog ++ [(maskNum, colorNum)] })

/-- Model of `StreamProxyWriter._add_proxy`: record a placement at
`(cursor.x, cursor.y - PROXY_HEIGHT)`, then either flush the page, wrap to the
next row, or advance within the row, per the double-ahead overflow checks. -/
def WState.addProxyOne (C : Codec) (w : WState) (form : Nat) : Except WErr WState :=
  let w := { w with
    proxyPositions := w.proxyPositions ++ [(form, w.cursor.1, w.cursor.2 - PROXY_HEIGHT)],
    placedLog := w.placedLog ++
      [Placement.mk w.pages.length form w.cursor.1 (w.cursor.2 - PROXY_HEIGHT)] }
  if w.cursor.1 + (PROXY_WIDTH + w.cardMargin) * 2 > w.pageW - w.margin then
    if w.cursor.2 - (PROXY_HEIGHT - w.cardMargin) * 2 < w.margin then
      w.flushPage C
    else
      .ok { w with cursor := (w.margin, w.cursor.2 - PROXY_HEIGHT - w.cardMargin) }
  else
    .ok { w with cursor := (w.cursor.1 + PROXY_WIDTH + w.cardMargin, w.cursor.2) }

/-- The `for _ in range(amount)` loop of `add_proxy`. -/
def placeLoop (C : Codec) (form : Nat) : Nat → WState → Except WErr WState
  | 0, w => .ok w
  | n + 1, w =>
    match w.addProxyOne C form with
    | .error e => .error e
    | .ok w' => placeLoop C form n w'

/-- Model of `StreamProxyWriter.add_proxy`: a no-op for `amount <= 0`; otherwise build
the image's XObjects once and place the color reference `amount` times. -/
def WState.addProxy (C : Codec) (w : WState) (img : PdfImage) (amount : Int) :
    Except WErr WState :=
  if amount ≤ 0 then .ok w
  else
    match w.addImageForm C img with
    | .error e => .error e
    | .ok (form, w1) => placeLoop C form amount.toNat w1

/-- Model of `StreamProxyWriter.open`: write the two-line header, register the
Pages-root object without writing it, and register and write the Catalog
object (whose content references the Pages-root). -/
def WState.openDoc (w : WState) : Except WErr WState :=
  if w.stream.closed then .error .streamClosed
  else
    let w := { w with stream :=
      { w.stream with data := w.stream.data ++ bs "%PDF-1.3\n%cool beans\n" } }
    match w.addObject (pdfDictBytes []) false with
    | .error e => .error e
    | .ok (prNum, w1) =>
      let w1 := { w1 with pagesRootNum := prNum }
      match w1.addObject
          (pdfDictBytes [(bs "/Type", bs "/Catalog"), (bs "/Pages", refBytes prNum)]) true with
      | .error e => .error e
      | .ok (rootNum, w2) => .ok { w2 with rootNum := rootNum }

/-- The lines of the cross-reference section: the free-list head entry followed
by one in-use entry per registered object, in registration order. -/
def xrefLines (objs : List IndObj) : List Bytes :=
  bs "0000000000 65535 f \n" ::
    objs.map (fun o => padOffset o.offset ++ bs " 00000 n \n")

/-- The cross-reference section: `xref`, the subsection header `0 <k+1>`, and
the entry lines. -/
def xrefSection (objs : List IndObj) : Bytes :=
  bs "xref\n" ++ bs "0 " ++ bInt (objs.length + 1) ++ bs "\n" ++ (xrefLines objs).flatten

/-- Model of `StreamProxyWriter._write_tail`: emit the cross-reference section, the
trailer dictionary (`/Size`, `/Root`), and `startxref` with the byte offset at
which the cross-reference section started. -/
def WState.writeTail (w : WState) : Except WErr WState :=
  if w.stream.closed then .error .streamClosed
  else
    .ok { w with stream := { w.stream with data := w.stream.data ++
      (xrefSection w.objects ++
        (bs "trailer\n" ++
          pdfDictBytes
            [(bs "/Size", bInt (w.objects.length + 1)), (bs "/Root", refBytes w.rootNum)] ++
          bs "startxref\n" ++ bInt w.stream.data.length ++ bs "\n%%EOF\n")) } }

/-- Model of `StreamProxyWriter.save`: flush a pending partial page, assign the
Pages-root its final content (`/Type /Pages`, `/Count`, `/Kids`) and write it
(the Pages-root is the head of the registry, registered first by `open`), then
write the tail and close the stream when `close_stream` is set. -/
def WState.save (C : Codec) (w : WState) : Except WErr WState :=
  match (if w.proxyPositions = [] then Except.ok w else w.flushPage C) with
  | .error e => .error e
  | .ok w1 =>
    match w1.objects with
    | [] => .error .attributeError
    | pr :: tl =>
      match IndObj.write
          { pr with content := some (pdfDictBytes
              [(bs "/Type", bs "/Pages"),
               (bs "/Count", bInt w1.pages.length),
               (bs "/Kids", pdfListBytes (w1.pages.map refBytes))]) } w1.stream with
      | .error e => .error e.1
      | .ok (pr', st') =>
        match WState.writeTail { w1 with objects := pr' :: tl, stream := st' } with
        | .error e => .error e
        | .ok w3 =>
          .ok (if w3.closeStream then { w3 with stream := { w3.stream with closed := true } }
               else w3)

/-- Run a list of `add_proxy` commands. -/
def runCmds (C : Codec) : WState → List (PdfImage × Int) → Except WErr WState
  | w, [] => .ok w
  | w, (img, n) :: rest =>
    match w.addProxy C img n with
    | .error e => .error e
    | .ok w' => runCmds C w' rest

/-- Open a writer and run a list of `add_proxy` commands (no save). -/
def runAfterOpen (C : Codec) (w0 : WState) (cmds : List (PdfImage × Int)) :
    Except WErr WState :=
  match w0.openDoc with
  | .error e => .error e
  | .ok w => runCmds C w cmds

/-- A complete document run: construct, open, add proxies, save. -/
def runDoc (C : Codec) (pageSize : ℚ × ℚ) (marginSize cardMarginSize : ℚ)
    (closeStream : Bool) (cmds : List (PdfImage × Int)) : Except WErr WState :=
  match runAfterOpen C (mkWriter pageSize marginSize cardMarginSize closeStream) cmds with
  | .error e => .error e
  | .ok w => w.save C

/-- Extract the state of a successful run (with a fallback default). -/
def okState (d : WState) : Except WErr WState → WState
  | .ok w => w
  | .error _ => d

/-- Whether a run completed without an error. -/
def isOkE : Except WErr WState → Bool
  | .ok _ => true
  | .error _ => false

/-- A small concrete image used to evaluate the model. -/
def img0 : PdfImage := ⟨2, 3, [10, 20, 30], [40]⟩

/-- The object whose registry entry carries offset `o.offset` has its header
`<number> 0 obj\n` sitting at exactly that byte position of `data`. -/
def writtenAt (data : Bytes) (o : IndObj) : Prop :=
  o.offset + (headerBytes o.number).length ≤ data.length ∧
  (data.drop o.offset).take (headerBytes o.number).length = headerBytes o.number

/-- Registry invariant maintained from `open` up to `save`: the registry is
nonempty (its head is the not-yet-written Pages-root), the offsets of all
other registered objects are strictly increasing, and each of those objects
has its header at its recorded offset of the sink. -/
def XInv (w : WState) : Prop :=
  w.objects ≠ [] ∧
  ((w.objects.tail.map (fun o => o.offset)).Chain' (· < ·)) ∧
  (∀ o ∈ w.objects.tail, writtenAt w.stream.data o)

/-- A minimal completed document: open and save with no proxies added
(A4-like page, default margins). -/
def c1minRun : Except WErr WState := runDoc idCodec (595, 842) (1 / 10) 0 true []

/-- The final state of the minimal completed document. -/
def c1w : WState := okState (mkWriter (595, 842) (1 / 10) 0 true) c1minRun

/-- A writer on a 595×842 page with margin 0.1 inch and card margin 0,
given four copies of one proxy image. -/
def c6run : Except WErr WState :=
  runAfterOpen idCodec (mkWriter (595, 842) (1 / 10) 0 true) [(img0, 4)]

/-- The card footprint of a placement lies inside the margin rectangle. -/
def inRect (pageW pageH m : ℚ) (p : Placement) : Prop :=
  m ≤ p.x ∧ p.x + PROXY_WIDTH ≤ pageW - m ∧ m ≤ p.y ∧ p.y + PROXY_HEIGHT ≤ pageH - m

/-- Two card footprints overlap (their interiors intersect, cards having
nonzero size 180×252). -/
def overlap (p q : Placement) : Prop :=
  p.x < q.x + PROXY_WIDTH ∧ q.x < p.x + PROXY_WIDTH ∧
  p.y < q.y + PROXY_HEIGHT ∧ q.y < p.y + PROXY_HEIGHT

/-- Row-major order of placements on one page: strictly lower rows first is
false — the cursor moves DOWN the page, so earlier placements sit strictly
higher (larger y), or on the same row strictly to the left. -/
def lexPrec (p q : Placement) : Prop := q.y < p.y ∨ (p.y = q.y ∧ p.x < q.x)

/-- Order of recording: earlier pages first, row-major within one page. -/
def pageOrd (p q : Placement) : Prop := p.page < q.page ∨ (p.page = q.page ∧ lexPrec p q)

/-- Layout invariant maintained by the cursor algorithm when the card margin
is zero: the margins accommodate a card on each axis, the cursor sits on the
card lattice with room for the card it anchors, every recorded placement lies
inside the margin rectangle on the lattice, placements are recorded in strict
`pageOrd` order, and every recorded placement strictly precedes the placement
the cursor currently anchors. -/
structure LInv (w : WState) : Prop where
  cm0 : w.cardMargin = 0
  mw : 2 * w.margin + PROXY_WIDTH ≤ w.pageW
  mh : 2 * w.margin + PROXY_HEIGHT ≤ w.pageH
  cxl : ∃ i : ℕ, w.cursor.1 = w.margin + i * PROXY_WIDTH
  cxu : w.cursor.1 + PROXY_WIDTH ≤ w.pageW - w.margin
  cyl : ∃ j : ℕ, w.cursor.2 = w.pageH - w.margin - j * PROXY_HEIGHT
  cyu : w.margin + PROXY_HEIGHT ≤ w.cursor.2
  plog : ∀ p ∈ w.placedLog,
    inRect w.pageW w.pageH w.margin p ∧
    (∃ i : ℕ, p.x = w.margin + i * PROXY_WIDTH) ∧
    (∃ j : ℕ, p.y = w.pageH - w.margin - (j + 1) * PROXY_HEIGHT)
  hord : w.placedLog.Pairwise pageOrd
  front : ∀ p ∈ w.placedLog,
    pageOrd p ⟨w.pages.length, 0, w.cursor.1, w.cursor.2 - PROXY_HEIGHT⟩

/-- A concrete zero-card-margin run used to witness the amended C3. -/
def c3wRun : Except WErr WState :=
  runAfterOpen idCodec (mkWriter (595, 842) (1 / 10) 0 true) [(img0, 4)]

/-- A run with card margin one inch: five proxies on a 595×842 page. -/
def c3cexRun : Except WErr WState :=
  runAfterOpen idCodec (mkWriter (595, 842) (1 / 10) 1 true) [(img0, 5)]

/-- The state of a freshly opened writer on a 595×842 page, used to
instantiate theorems on a concrete state. -/
def c8w : WState :=
  okState (mkWriter (595, 842) (1 / 10) 0 true)
    (mkWriter (595, 842) (1 / 10) 0 true).openDoc

/-- A document saved twice on a writer constructed with `close_stream=False`. -/
def c9cexRun : Except WErr WState :=
  match runDoc idCodec (595, 842) (1 / 10) 0 false [] with
  | .ok w => w.save idCodec
  | .error e => .error e

/-! ### Helper lemmas: byte slices, offsets, and the registry -/

lemma bs_obj_len : (bs " 0 obj\n").length = 7 := by decide

lemma headerBytes_len_pos (n : Nat) : 0 < (headerBytes n).length := by
  simp only [headerBytes, List.length_append, bs_obj_len]
  omega

lemma writtenAt_lt {data : Bytes} {o : IndObj} (h : writtenAt data o) :
    o.offset < data.length := by
  have h1 := h.1
  have h2 := headerBytes_len_pos o.number
  omega

lemma writtenAt_append {data more : Bytes} {o : IndObj} (h : writtenAt data o) :
    writtenAt (data ++ more) o := by
  obtain ⟨h1, h2⟩ := h
  have hoff : o.offset ≤ data.length := by omega
  refine ⟨by simp only [List.length_append]; omega, ?_⟩
  rw [List.drop_append_of_le_length hoff,
      List.take_append_of_le_length (by simp only [List.length_drop]; omega)]
  exact h2

lemma writtenAt_here (data c : Bytes) (n : Nat) :
    writtenAt (data ++ (headerBytes n ++ c ++ bs "endobj\n")) ⟨n, data.length, none⟩ := by
  refine ⟨by simp [List.length_append], ?_⟩
  have hd : (data ++ (headerBytes n ++ c ++ bs "endobj\n")).drop data.length
      = headerBytes n ++ c ++ bs "endobj\n" := List.drop_left data _
  rw [hd, List.append_assoc, List.take_left]

lemma chain'_lt_append {l : List Nat} {a : Nat} (h : l.Chain' (· < ·))
    (ha : ∀ x ∈ l, x < a) : (l ++ [a]).Chain' (· < ·) := by
  rw [List.chain'_append]
  refine ⟨h, List.chain'_singleton a, ?_⟩
  intro x hx y hy
  simp only [List.head?_cons, Option.mem_def, Option.some.injEq] at hy
  subst hy
  exact ha x (List.mem_of_getLast?_eq_some hx)

/-! ### Execution and inversion lemmas for the writer operations -/

lemma addObject_true_eq (w : WState) (c : Bytes) (hc : w.stream.closed = false) :
    w.addObject c true = .ok (w.counter + 1,
      { w with counter := w.counter + 1,
               objects := w.objects ++ [⟨w.counter + 1, w.stream.data.length, none⟩],
               stream := { w.stream with
                 data := w.stream.data ++
                   (headerBytes (w.counter + 1) ++ c ++ bs "endobj\n") } }) := by
  simp [WState.addObject, IndObj.write, hc]

lemma addObject_true_closed (w : WState) (c : Bytes) (hc : w.stream.closed = true) :
    w.addObject c true = .error .streamClosed := by
  simp [WState.addObject, IndObj.write, hc]

lemma addObject_true_ok {w : WState} {c : Bytes} {r : Nat × WState}
    (h : w.addObject c true = .ok r) :
    w.stream.closed = false ∧
    r = (w.counter + 1,
      { w with counter := w.counter + 1,
               objects := w.objects ++ [⟨w.counter + 1, w.stream.data.length, none⟩],
               stream := { w.stream with
                 data := w.stream.data ++
                   (headerBytes (w.counter + 1) ++ c ++ bs "endobj\n") } }) := by
  cases hc : w.stream.closed with
  | true => rw [addObject_true_closed w c hc] at h; exact absurd h (by simp)
  | false =>
    rw [addObject_true_eq w c hc] at h
    exact ⟨rfl, (Except.ok.inj h).symm⟩

lemma openDoc_eq (w : WState) (hc : w.stream.closed = false) :
    w.openDoc = .ok { w with
      stream := { w.stream with data :=
        (w.stream.data ++ bs "%PDF-1.3\n%cool beans\n") ++
          (headerBytes (w.counter + 1 + 1) ++
            pdfDictBytes [(bs "/Type", bs "/Catalog"), (bs "/Pages", refBytes (w.counter + 1))] ++
            bs "endobj\n") },
      counter := w.counter + 1 + 1,
      objects := (w.objects ++ [⟨w.counter + 1, 0, some (pdfDictBytes [])⟩]) ++
        [⟨w.counter + 1 + 1, (w.stream.data ++ bs "%PDF-1.3\n%cool beans\n").length, none⟩],
      rootNum := w.counter + 1 + 1,
      pagesRootNum := w.counter + 1 } := by
  simp [WState.openDoc, WState.addObject, IndObj.write, hc]

lemma XInv_addObject {w : WState} {c : Bytes} {n : Nat} {w' : WState}
    (h : w.addObject c true = .ok (n, w')) (hI : XInv w) : XInv w' := by
  obtain ⟨hc, hr⟩ := addObject_true_ok h
  have hw' : w' =
      { w with
        counter := w.counter + 1,
        objects := w.objects ++ [⟨w.counter + 1, w.stream.data.length, none⟩],
        stream := { w.stream with
                    data := w.stream.data ++
                      (headerBytes (w.counter + 1) ++ c ++ bs "endobj\n") } } :=
    congrArg Prod.snd hr
  subst hw'
  obtain ⟨hne, hch, hwr⟩ := hI
  have htail : (w.objects ++ [(⟨w.counter + 1, w.stream.data.length, none⟩ : IndObj)]).tail
      = w.objects.tail ++ [⟨w.counter + 1, w.stream.data.length, none⟩] := by
    obtain ⟨a, l, hobj⟩ := List.exists_cons_of_ne_nil hne
    rw [hobj]
    simp
  refine ⟨by simp, ?_, ?_⟩
  · simp only [htail, List.map_append, List.map_cons, List.map_nil]
    refine chain'_lt_append hch ?_
    intro x hx
    obtain ⟨o, ho, rfl⟩ := List.mem_map.mp hx
    exact writtenAt_lt (hwr o ho)
  · simp only [htail]
    intro o ho
    rcases List.mem_append.mp ho with hmem | hmem
    · exact writtenAt_append (hwr o hmem)
    · simp only [List.mem_singleton] at hmem
      subst hmem
      exact writtenAt_here w.stream.data c (w.counter + 1)

lemma XInv_flushPage {C : Codec} {w w' : WState} (h : w.flushPage C = .ok w')
    (hI : XInv w) : XInv w' := by
  unfold WState.flushPage at h
  dsimp only at h
  split at h
  · exact absurd h (by simp)
  · rename_i csNum w1 heq1
    split at h
    · exact absurd h (by simp)
    · rename_i pgNum w2 heq2
      have h1 : XInv w1 := XInv_addObject heq1 hI
      have h2 : XInv w2 := XInv_addObject heq2 h1
      obtain rfl : _ = w' := Except.ok.inj h
      exact h2

lemma XInv_addImageForm {C : Codec} {w : WState} {img : PdfImage} {n : Nat} {w' : WState}
    (h : w.addImageForm C img = .ok (n, w')) (hI : XInv w) : XInv w' := by
  unfold WState.addImageForm at h
  split at h
  · exact absurd h (by simp)
  · rename_i maskNum w1 heq1
    split at h
    · exact absurd h (by simp)
    · rename_i colorNum w2 heq2
      have h1 : XInv w1 := XInv_addObject heq1 hI
      have h2 : XInv w2 := XInv_addObject heq2 h1
      obtain ⟨_, rfl⟩ : _ ∧ _ = w' := Prod.mk.injEq .. ▸ Except.ok.inj h
      exact h2

lemma XInv_addProxyOne {C : Codec} {w : WState} {form : Nat} {w' : WState}
    (h : w.addProxyOne C form = .ok w') (hI : XInv w) : XInv w' := by
  unfold WState.addProxyOne at h
  dsimp only at h
  split at h
  · split at h
    · exact XInv_flushPage h hI
    · obtain rfl : _ = w' := Except.ok.inj h
      exact hI
  · obtain rfl : _ = w' := Except.ok.inj h
    exact hI

lemma XInv_placeLoop {C : Codec} {form : Nat} :
    ∀ {n : Nat} {w w' : WState}, placeLoop C form n w = .ok w' → XInv w → XInv w'
  | 0, _, _, h, hI => by
    obtain rfl : _ = _ := Except.ok.inj h
    exact hI
  | n + 1, w, w', h, hI => by
    unfold placeLoop at h
    split at h
    · exact absurd h (by simp)
    · rename_i w1 heq1
      exact XInv_placeLoop h (XInv_addProxyOne heq1 hI)

lemma XInv_addProxy {C : Codec} {w : WState} {img : PdfImage} {a : Int} {w' : WState}
    (h : w.addProxy C img a = .ok w') (hI : XInv w) : XInv w' := by
  unfold WState.addProxy at h
  split at h
  · obtain rfl : _ = w' := Except.ok.inj h
    exact hI
  · split at h
    · exact absurd h (by simp)
    · rename_i form w1 heq1
      exact XInv_placeLoop h (XInv_addImageForm heq1 hI)

lemma XInv_runCmds {C : Codec} :
    ∀ {cmds : List (PdfImage × Int)} {w w' : WState},
      runCmds C w cmds = .ok w' → XInv w → XInv w'
  | [], _, _, h, hI => by
    obtain rfl : _ = _ := Except.ok.inj h
    exact hI
  | (img, a) :: rest, w, w', h, hI => by
    unfold runCmds at h
    split at h
    · exact absurd h (by simp)
    · rename_i w1 heq1
      exact XInv_runCmds h (XInv_addProxy heq1 hI)

lemma XInv_openDoc {w w' : WState} (h : w.openDoc = .ok w') (hobj : w.objects = [])
    (hc : w.stream.closed = false) : XInv w' := by
  rw [openDoc_eq w hc] at h
  obtain rfl : _ = w' := Except.ok.inj h
  refine ⟨by simp, ?_, ?_⟩
  · rw [hobj]
    simp [List.chain'_singleton]
  · rw [hobj]
    intro o ho
    simp at ho
    subst ho
    have hw := writtenAt_here (w.stream.data ++ bs "%PDF-1.3\n%cool beans\n")
      (pdfDictBytes [(bs "/Type", bs "/Catalog"), (bs "/Pages", refBytes (w.counter + 1))])
      (w.counter + 1 + 1)
    simpa [List.length_append] using hw

lemma exists_mid (a b c : Bytes) : ∃ u v, a ++ (b ++ c) = u ++ b ++ v :=
  ⟨a, c, by simp [List.append_assoc]⟩

lemma save_ok_facts {C : Codec} {w wf : WState} (h : w.save C = .ok wf) (hI : XInv w) :
    ∃ pr tl,
      wf.objects = pr :: tl ∧
      ((tl.map (fun o => o.offset)).Chain' (· < ·)) ∧
      (∀ o ∈ tl, o.offset < pr.offset) ∧
      (∀ o ∈ wf.objects, writtenAt wf.stream.data o) ∧
      (∃ u v, wf.stream.data = u ++ xrefSection wf.objects ++ v) := by
  unfold WState.save at h
  split at h
  · exact absurd h (by simp)
  · rename_i w1 heq1
    have hI1 : XInv w1 := by
      rcases heq1 with heq1
      split at heq1
      · obtain rfl : _ = w1 := Except.ok.inj heq1
        exact hI
      · exact XInv_flushPage heq1 hI
    split at h
    · rename_i hnil
      exact absurd hnil (by exact hI1.1)
    · rename_i pr tl hcons
      obtain ⟨hne1, hch1, hwr1⟩ := hI1
      rw [hcons] at hwr1 hch1
      simp only [List.tail_cons] at hwr1 hch1
      split at h
      · exact absurd h (by simp)
      · rename_i pr' st' heq2
        unfold IndObj.write at heq2
        dsimp only at heq2
        split at heq2
        · exact absurd heq2 (by simp)
        · rename_i hcl
          have hp := Except.ok.inj heq2
          rw [Prod.ext_iff] at hp
          obtain ⟨hpr', hst'⟩ := hp
          dsimp only at hpr' hst'
          subst hpr'
          subst hst'
          unfold WState.writeTail at h
          dsimp only at h
          rw [if_neg hcl] at h
          dsimp only at h
          obtain rfl : _ = wf := Except.ok.inj h
          have hlt : ∀ o ∈ tl, o.offset < w1.stream.data.length :=
            fun o ho => writtenAt_lt (hwr1 o ho)
          have hwrpr : writtenAt (w1.stream.data ++
              (headerBytes pr.number ++ pdfDictBytes [(bs "/Type", bs "/Pages"),
                (bs "/Count", bInt w1.pages.length),
                (bs "/Kids", pdfListBytes (w1.pages.map refBytes))] ++ bs "endobj\n"))
              ⟨pr.number, w1.stream.data.length, none⟩ :=
            writtenAt_here w1.stream.data _ pr.number
          split
          · refine ⟨⟨pr.number, w1.stream.data.length, none⟩, tl, rfl, hch1, hlt, ?_,
              exists_mid _ _ _⟩
            intro o ho
            rcases List.mem_cons.mp ho with rfl | hmem
            · exact writtenAt_append hwrpr
            · exact writtenAt_append (writtenAt_append (hwr1 o hmem))
          · refine ⟨⟨pr.number, w1.stream.data.length, none⟩, tl, rfl, hch1, hlt, ?_,
              exists_mid _ _ _⟩
            intro o ho
            rcases List.mem_cons.mp ho with rfl | hmem
            · exact writtenAt_append hwrpr
            · exact writtenAt_append (writtenAt_append (hwr1 o hmem))

/-! ### C1: the cross-reference section -/

/-- C1, counterexample: in a completed document the in-use cross-reference
entries (one per registered object, in registration order) do NOT have
strictly increasing offsets: the first registered object is the Pages-root,
which is written last and so carries the largest offset.  Concretely, the
minimal document registers two objects whose offset sequence is `[78, 21]`. -/
theorem c1_counterexample :
    isOkE c1minRun = true ∧
    c1w.objects.map (fun o => o.offset) = [78, 21] ∧
    ¬ ((c1w.objects.map (fun o => o.offset)).Chain' (· < ·)) := by
  refine ⟨by decide, by decide, ?_⟩
  intro hch
  rw [show c1w.objects.map (fun o => o.offset) = [78, 21] from by decide] at hch
  norm_num [List.chain'_cons] at hch

/-- C1 (amended): for every completed document with `k` registered
`IndirectObject`s the emitted xref section has exactly `k + 1` entries; the
first is the free-list head and the remaining `k` are in-use entries listed in
registration order, each 10-digit zero-padded offset equal to the exact byte
position at which that object's header was written.  The offsets of all
entries except the first in-use one are strictly increasing; the first in-use
entry belongs to the Pages-root, which is written last during `save` and
therefore carries the largest offset of all. -/
theorem c1_amended {C : Codec} {pageSize : ℚ × ℚ} {marginSize cardMarginSize : ℚ}
    {closeStream : Bool} {cmds : List (PdfImage × Int)} {w : WState}
    (h : runDoc C pageSize marginSize cardMarginSize closeStream cmds = .ok w) :
    (xrefLines w.objects).length = w.objects.length + 1 ∧
    (xrefLines w.objects).head? = some (bs "0000000000 65535 f \n") ∧
    (xrefLines w.objects).tail =
      w.objects.map (fun o => padOffset o.offset ++ bs " 00000 n \n") ∧
    (∃ u v, w.stream.data = u ++ xrefSection w.objects ++ v) ∧
    (∀ o ∈ w.objects, writtenAt w.stream.data o) ∧
    ∃ pr tl, w.objects = pr :: tl ∧
      ((tl.map (fun o => o.offset)).Chain' (· < ·)) ∧
      (∀ o ∈ tl, o.offset < pr.offset) := by
  unfold runDoc at h
  split at h
  · exact absurd h (by simp)
  · rename_i w1 heq1
    have hI : XInv w1 := by
      unfold runAfterOpen at heq1
      split at heq1
      · exact absurd heq1 (by simp)
      · rename_i w0 heq0
        exact XInv_runCmds heq1 (XInv_openDoc heq0 rfl rfl)
    obtain ⟨pr, tl, hobj, hch, hlt, hwr, hsplit⟩ := save_ok_facts h hI
    exact ⟨by simp [xrefLines], by simp [xrefLines], by simp [xrefLines],
      hsplit, hwr, pr, tl, hobj, hch, hlt⟩

/-- C1 (amended), witness: the amended statement instantiated on the minimal
completed document. -/
theorem c1_amended_witness :
    (xrefLines c1w.objects).length = c1w.objects.length + 1 ∧
    (xrefLines c1w.objects).head? = some (bs "0000000000 65535 f \n") ∧
    (xrefLines c1w.objects).tail =
      c1w.objects.map (fun o => padOffset o.offset ++ bs " 00000 n \n") ∧
    (∃ u v, c1w.stream.data = u ++ xrefSection c1w.objects ++ v) ∧
    (∀ o ∈ c1w.objects, writtenAt c1w.stream.data o) ∧
    ∃ pr tl, c1w.objects = pr :: tl ∧
      ((tl.map (fun o => o.offset)).Chain' (· < ·)) ∧
      (∀ o ∈ tl, o.offset < pr.offset) :=
  @c1_amended idCodec (595, 842) (1 / 10) 0 true [] c1w rfl

/-! ### C2: the stream codec -/

/-- C2: every stream object's payload is deflate-compressed and then base-85
encoded, so base-85 decoding followed by inflating recovers the payload
exactly (any payload, including the empty one), and the emitted stream
dictionary starts with `/Filter [ /ASCII85Decode /FlateDecode ]` and
`/Length` equal to the byte length of the encoded payload, ahead of the
caller's entries.  The compressor/encoder pair are the external library
collaborators, taken here as arbitrary functions with their decoder inverses
as hypotheses. -/
theorem c2_stream_codec (compress a85encode inflate a85decode : Bytes → Bytes)
    (h1 : ∀ x, inflate (compress x) = x) (h2 : ∀ x, a85decode (a85encode x) = x)
    (content : Bytes) (extra : List (Bytes × Bytes)) :
    inflate (a85decode (a85encode (compress content))) = content ∧
    pdfStreamBytes ⟨compress, a85encode⟩ content extra =
      pdfDictBytes
          ((bs "/Filter", pdfListBytes [bs "/ASCII85Decode", bs "/FlateDecode"]) ::
            (bs "/Length", bInt (a85encode (compress content)).length) :: extra) ++
        bs "stream\n" ++ a85encode (compress content) ++ bs "\nendstream\n" := by
  refine ⟨?_, rfl⟩
  rw [h2, h1]

/-- C2, witness: the codec theorem instantiated with identity collaborators
and the empty payload. -/
theorem c2_stream_codec_witness :
    id (id (id (id ([] : Bytes)))) = ([] : Bytes) ∧
    pdfStreamBytes ⟨id, id⟩ ([] : Bytes) [] =
      pdfDictBytes
          ((bs "/Filter", pdfListBytes [bs "/ASCII85Decode", bs "/FlateDecode"]) ::
            (bs "/Length", bInt (id (id ([] : Bytes))).length) :: []) ++
        bs "stream\n" ++ id (id ([] : Bytes)) ++ bs "\nendstream\n" :=
  c2_stream_codec id id id id (fun _ => rfl) (fun _ => rfl) [] []

/-! ### C4: no configuration rejection -/

unseal Rat.mul Rat.inv Rat.add Rat.sub Rat.ofScientific in
/-- C4: the writer never rejects a page size smaller than a card.  With page
100×100 the clamps drive the margin to −76, construction succeeds anyway, and
`open` then writes the header bytes to the sink; no configuration error
exists anywhere in the construction or open paths. -/
theorem c4_no_rejection :
    (mkWriter (100, 100) (1 / 10) 0 true).margin = -76 ∧
    (mkWriter (100, 100) (1 / 10) 0 true).margin < 0 ∧
    ∃ w, (mkWriter (100, 100) (1 / 10) 0 true).openDoc = .ok w ∧
      w.stream.data.length ≠ 0 := by
  refine ⟨by decide, by decide, ⟨_, rfl, by decide⟩⟩

/-! ### C5: margin clamping -/

lemma mkWriter_margin_le (ps : ℚ × ℚ) (M cm : ℚ) (cs : Bool) :
    2 * (mkWriter ps M cm cs).margin + PROXY_WIDTH ≤ ps.1 ∧
    2 * (mkWriter ps M cm cs).margin + PROXY_HEIGHT ≤ ps.2 := by
  simp only [mkWriter]
  split_ifs with h1 h2 h2 <;> constructor <;> linarith

unseal Rat.mul Rat.inv Rat.add Rat.sub Rat.ofScientific in
/-- C5, counterexample: the vertical clamp is not decided by the supplied
margin.  With page 595×842 and a supplied margin of 5 inches (360 points),
`2×360 + 252 > 842` holds, so the claim would make the vertical margin
`(842−252)/2 = 295`; but the writer's single final margin is `415/2 = 207.5`
(the horizontal clamp's value, which already passes the vertical test). -/
theorem c5_counterexample :
    2 * ((5 : ℚ) * inch) + PROXY_HEIGHT > 842 ∧
    (mkWriter (595, 842) 5 0 true).margin = 415 / 2 ∧
    (mkWriter (595, 842) 5 0 true).margin ≠ (842 - PROXY_HEIGHT) / 2 := by
  refine ⟨by norm_num [inch, PROXY_HEIGHT], by decide, by decide⟩

/-- C5 (amended): the clamps are applied sequentially to one shared margin
value.  The horizontal clamp tests the supplied (inch-scaled) margin; the
vertical clamp tests the horizontally-clamped value; the single resulting
value serves both axes, and it always satisfies `2·m + card_width ≤
page_width` and `2·m + card_height ≤ page_height`. -/
theorem c5_amended (ps : ℚ × ℚ) (marginSize cardMarginSize : ℚ) (cs : Bool) :
    (mkWriter ps marginSize cardMarginSize cs).margin =
      (if (if marginSize * inch * 2 + PROXY_WIDTH > ps.1
            then (ps.1 - PROXY_WIDTH) / 2 else marginSize * inch) * 2 + PROXY_HEIGHT > ps.2
       then (ps.2 - PROXY_HEIGHT) / 2
       else if marginSize * inch * 2 + PROXY_WIDTH > ps.1
            then (ps.1 - PROXY_WIDTH) / 2 else marginSize * inch) ∧
    2 * (mkWriter ps marginSize cardMarginSize cs).margin + PROXY_WIDTH ≤ ps.1 ∧
    2 * (mkWriter ps marginSize cardMarginSize cs).margin + PROXY_HEIGHT ≤ ps.2 :=
  ⟨rfl, (mkWriter_margin_le ps marginSize cardMarginSize cs).1,
    (mkWriter_margin_le ps marginSize cardMarginSize cs).2⟩

/-! ### C6: the 595×842 scenario -/

unseal Rat.mul Rat.inv Rat.add Rat.sub Rat.ofScientific in
/-- C6: with page 595×842, card 180×252, margin 7.2 points and card margin 0,
the first row receives exactly 3 placements (all at y = 582.8 = 2914/5), and
the 4th placement starts a new row (y = 330.8 = 1654/5) on the same page:
no page has been flushed. -/
theorem c6_scenario :
    isOkE c6run = true ∧
    (okState (mkWriter (595, 842) (1 / 10) 0 true) c6run).placedLog.map
        (fun p => (p.page, p.x, p.y)) =
      [(0, 36 / 5, 2914 / 5), (0, 936 / 5, 2914 / 5), (0, 1836 / 5, 2914 / 5),
       (0, 36 / 5, 1654 / 5)] ∧
    (okState (mkWriter (595, 842) (1 / 10) 0 true) c6run).pages = [] := by
  refine ⟨by decide, by decide, by decide⟩

/-! ### C3: layout containment and non-overlap -/

lemma lexPrec_trans {p q r : Placement} (h1 : lexPrec p q) (h2 : lexPrec q r) :
    lexPrec p r := by
  rcases h1 with h1 | ⟨h1, h1x⟩ <;> rcases h2 with h2 | ⟨h2, h2x⟩
  · exact Or.inl (lt_trans h2 h1)
  · exact Or.inl (h2 ▸ h1)
  · exact Or.inl (by rw [h1]; exact h2)
  · exact Or.inr ⟨h1.trans h2, h1x.trans h2x⟩

lemma pageOrd_trans {p q r : Placement} (h1 : pageOrd p q) (h2 : pageOrd q r) :
    pageOrd p r := by
  rcases h1 with h1 | ⟨h1, h1l⟩ <;> rcases h2 with h2 | ⟨h2, h2l⟩
  · exact Or.inl (lt_trans h1 h2)
  · exact Or.inl (h2 ▸ h1)
  · exact Or.inl (h1 ▸ h2)
  · exact Or.inr ⟨h1.trans h2, lexPrec_trans h1l h2l⟩

lemma pageOrd_page_le {p f : Placement} (h : pageOrd p f) : p.page ≤ f.page := by
  rcases h with h | ⟨h, _⟩
  · exact le_of_lt h
  · exact le_of_eq h

lemma PW_pos : (0 : ℚ) < PROXY_WIDTH := by norm_num [PROXY_WIDTH, inch]

lemma PH_pos : (0 : ℚ) < PROXY_HEIGHT := by norm_num [PROXY_HEIGHT, inch]

lemma LInv_transfer {w w' : WState} (hI : LInv w)
    (h1 : w'.pageW = w.pageW) (h2 : w'.pageH = w.pageH) (h3 : w'.margin = w.margin)
    (h4 : w'.cardMargin = w.cardMargin) (h5 : w'.cursor = w.cursor)
    (h6 : w'.pages.length = w.pages.length) (h7 : w'.placedLog = w.placedLog) :
    LInv w' := by
  refine ⟨?_, ?_, ?_, ?_, ?_, ?_, ?_, ?_, ?_, ?_⟩ <;>
    simp only [h1, h2, h3, h4, h5, h6, h7]
  · exact hI.cm0
  · exact hI.mw
  · exact hI.mh
  · exact hI.cxl
  · exact hI.cxu
  · exact hI.cyl
  · exact hI.cyu
  · exact hI.plog
  · exact hI.hord
  · exact hI.front

lemma LInv_mkWriter (ps : ℚ × ℚ) (M : ℚ) (cs : Bool) : LInv (mkWriter ps M 0 cs) := by
  obtain ⟨hmw, hmh⟩ := mkWriter_margin_le ps M 0 cs
  refine ⟨?_, hmw, hmh, ⟨0, ?_⟩, ?_, ⟨0, ?_⟩, ?_, ?_, ?_, ?_⟩
  · show (0 : ℚ) * inch = 0
    ring
  · show (mkWriter ps M 0 cs).cursor.1 = (mkWriter ps M 0 cs).margin + (0 : ℕ) * PROXY_WIDTH
    simp [mkWriter]
  · show (mkWriter ps M 0 cs).cursor.1 + PROXY_WIDTH ≤ ps.1 - (mkWriter ps M 0 cs).margin
    have : (mkWriter ps M 0 cs).cursor.1 = (mkWriter ps M 0 cs).margin := by simp [mkWriter]
    rw [this]
    linarith
  · show (mkWriter ps M 0 cs).cursor.2 = ps.2 - (mkWriter ps M 0 cs).margin - (0 : ℕ) * PROXY_HEIGHT
    simp [mkWriter]
  · show (mkWriter ps M 0 cs).margin + PROXY_HEIGHT ≤ (mkWriter ps M 0 cs).cursor.2
    have : (mkWriter ps M 0 cs).cursor.2 = ps.2 - (mkWriter ps M 0 cs).margin := by
      simp [mkWriter]
    rw [this]
    linarith
  · intro p hp
    exact absurd hp (by simp [mkWriter])
  · show List.Pairwise pageOrd (mkWriter ps M 0 cs).placedLog
    simp [mkWriter]
  · intro p hp
    exact absurd hp (by simp [mkWriter])

lemma flushPage_layout {C : Codec} {w w' : WState} (h : w.flushPage C = .ok w') :
    w'.pageW = w.pageW ∧ w'.pageH = w.pageH ∧ w'.margin = w.margin ∧
    w'.cardMargin = w.cardMargin ∧ w'.cursor = (w.margin, w.pageH - w.margin) ∧
    w'.pages.length = w.pages.length + 1 ∧ w'.placedLog = w.placedLog ∧
    w'.imageLog = w.imageLog ∧ w'.closeStream = w.closeStream ∧
    w'.proxyPositions = [] ∧ w'.counter = w.counter + 2 := by
  unfold WState.flushPage at h
  dsimp only at h
  split at h
  · exact absurd h (by simp)
  · rename_i csNum w1 heq1
    split at h
    · exact absurd h (by simp)
    · rename_i pgNum w2 heq2
      obtain ⟨_, hr1⟩ := addObject_true_ok heq1
      obtain ⟨_, hr2⟩ := addObject_true_ok heq2
      have hw1 := congrArg Prod.snd hr1
      dsimp only at hw1
      subst hw1
      have hw2 := congrArg Prod.snd hr2
      dsimp only at hw2
      subst hw2
      obtain rfl : _ = w' := Except.ok.inj h
      simp

lemma LInv_flushPage {C : Codec} {w w' : WState} (h : w.flushPage C = .ok w')
    (hcm : w.cardMargin = 0)
    (hmw : 2 * w.margin + PROXY_WIDTH ≤ w.pageW)
    (hmh : 2 * w.margin + PROXY_HEIGHT ≤ w.pageH)
    (hplog : ∀ p ∈ w.placedLog,
      inRect w.pageW w.pageH w.margin p ∧
      (∃ i : ℕ, p.x = w.margin + i * PROXY_WIDTH) ∧
      (∃ j : ℕ, p.y = w.pageH - w.margin - (j + 1) * PROXY_HEIGHT))
    (hord : w.placedLog.Pairwise pageOrd)
    (hpage : ∀ p ∈ w.placedLog, p.page ≤ w.pages.length) : LInv w' := by
  obtain ⟨e1, e2, e3, e4, e5, e6, e7, -, -, -, -⟩ := flushPage_layout h
  have e5x : w'.cursor.1 = w.margin := by rw [e5]
  have e5y : w'.cursor.2 = w.pageH - w.margin := by rw [e5]
  refine ⟨by rw [e4, hcm], ?_, ?_, ⟨0, ?_⟩, ?_, ⟨0, ?_⟩, ?_, ?_, ?_, ?_⟩
  · rw [e3, e1]; exact hmw
  · rw [e3, e2]; exact hmh
  · rw [e5x, e3]; push_cast; ring
  · rw [e5x, e3, e1]; linarith
  · simp only [e5y, e2, e3]; push_cast; ring
  · simp only [e5y, e2, e3]; linarith
  · rw [e7, e1, e2, e3]; exact hplog
  · rw [e7]; exact hord
  · intro p hp
    rw [e7] at hp
    exact Or.inl (by rw [e6]; exact Nat.lt_succ_of_le (hpage p hp))

lemma LInv_addProxyOne {C : Codec} {w : WState} {form : Nat} {w' : WState}
    (h : w.addProxyOne C form = .ok w') (hI : LInv w) : LInv w' := by
  obtain ⟨i, hcx⟩ := hI.cxl
  obtain ⟨j, hcy⟩ := hI.cyl
  have hiw : (0 : ℚ) ≤ (i : ℚ) * PROXY_WIDTH :=
    mul_nonneg (Nat.cast_nonneg i) (le_of_lt PW_pos)
  have hjh : (0 : ℚ) ≤ (j : ℚ) * PROXY_HEIGHT :=
    mul_nonneg (Nat.cast_nonneg j) (le_of_lt PH_pos)
  have hex : inRect w.pageW w.pageH w.margin
        (Placement.mk w.pages.length form w.cursor.1 (w.cursor.2 - PROXY_HEIGHT)) ∧
      (∃ i' : ℕ, w.cursor.1 = w.margin + i' * PROXY_WIDTH) ∧
      (∃ j' : ℕ, w.cursor.2 - PROXY_HEIGHT =
        w.pageH - w.margin - (j' + 1) * PROXY_HEIGHT) := by
    refine ⟨⟨?_, ?_, ?_, ?_⟩, ⟨i, hcx⟩, ⟨j, by rw [hcy]; ring⟩⟩
    · show w.margin ≤ w.cursor.1
      rw [hcx]
      linarith
    · show w.cursor.1 + PROXY_WIDTH ≤ w.pageW - w.margin
      exact hI.cxu
    · show w.margin ≤ w.cursor.2 - PROXY_HEIGHT
      linarith [hI.cyu]
    · show w.cursor.2 - PROXY_HEIGHT + PROXY_HEIGHT ≤ w.pageH - w.margin
      have hcyb : w.cursor.2 ≤ w.pageH - w.margin := by
        rw [hcy]
        linarith
      linarith
  have hplog2 : ∀ p ∈ w.placedLog ++
        [Placement.mk w.pages.length form w.cursor.1 (w.cursor.2 - PROXY_HEIGHT)],
      inRect w.pageW w.pageH w.margin p ∧
      (∃ i' : ℕ, p.x = w.margin + i' * PROXY_WIDTH) ∧
      (∃ j' : ℕ, p.y = w.pageH - w.margin - (j' + 1) * PROXY_HEIGHT) := by
    intro p hp
    rcases List.mem_append.mp hp with hmem | hmem
    · exact hI.plog p hmem
    · simp only [List.mem_singleton] at hmem
      subst hmem
      exact hex
  have hord2 : (w.placedLog ++
        [Placement.mk w.pages.length form w.cursor.1 (w.cursor.2 - PROXY_HEIGHT)]).Pairwise
        pageOrd := by
    rw [List.pairwise_append]
    refine ⟨hI.hord, List.pairwise_singleton _ _, ?_⟩
    intro p hp q hq
    simp only [List.mem_singleton] at hq
    subst hq
    exact hI.front p hp
  have hpage2 : ∀ p ∈ w.placedLog ++
        [Placement.mk w.pages.length form w.cursor.1 (w.cursor.2 - PROXY_HEIGHT)],
      p.page ≤ w.pages.length := by
    intro p hp
    rcases List.mem_append.mp hp with hmem | hmem
    · exact pageOrd_page_le (hI.front p hmem)
    · simp only [List.mem_singleton] at hmem
      subst hmem
      exact le_refl _
  unfold WState.addProxyOne at h
  dsimp only at h
  split at h
  · rename_i hc1
    split at h
    · rename_i hc2
      exact LInv_flushPage h hI.cm0 hI.mw hI.mh hplog2 hord2 hpage2
    · rename_i hc2
      obtain rfl : _ = w' := Except.ok.inj h
      rw [hI.cm0] at hc2
      push_neg at hc2
      refine ⟨hI.cm0, hI.mw, hI.mh, ⟨0, by dsimp only; push_cast; ring⟩, ?_, ?_, ?_,
        hplog2, hord2, ?_⟩
      · show w.margin + PROXY_WIDTH ≤ w.pageW - w.margin
        linarith [hI.mw]
      · refine ⟨j + 1, ?_⟩
        dsimp only
        rw [hI.cm0, hcy]
        push_cast
        ring
      · show w.margin + PROXY_HEIGHT ≤ w.cursor.2 - PROXY_HEIGHT - w.cardMargin
        rw [hI.cm0]
        linarith
      · intro p hp
        have hef : pageOrd
            (Placement.mk w.pages.length form w.cursor.1 (w.cursor.2 - PROXY_HEIGHT))
            ⟨w.pages.length, 0, w.margin,
              (w.cursor.2 - PROXY_HEIGHT - w.cardMargin) - PROXY_HEIGHT⟩ := by
          refine Or.inr ⟨rfl, Or.inl ?_⟩
          show w.cursor.2 - PROXY_HEIGHT - w.cardMargin - PROXY_HEIGHT <
            w.cursor.2 - PROXY_HEIGHT
          rw [hI.cm0]
          linarith [PH_pos]
        rcases List.mem_append.mp hp with hmem | hmem
        · exact pageOrd_trans (hI.front p hmem) hef
        · simp only [List.mem_singleton] at hmem
          subst hmem
          exact hef
  · rename_i hc1
    obtain rfl : _ = w' := Except.ok.inj h
    rw [hI.cm0] at hc1
    push_neg at hc1
    refine ⟨hI.cm0, hI.mw, hI.mh, ?_, ?_, ⟨j, hcy⟩, hI.cyu, hplog2, hord2, ?_⟩
    · refine ⟨i + 1, ?_⟩
      dsimp only
      rw [hI.cm0, hcx]
      push_cast
      ring
    · show w.cursor.1 + PROXY_WIDTH + w.cardMargin + PROXY_WIDTH ≤ w.pageW - w.margin
      rw [hI.cm0]
      linarith
    · intro p hp
      have hef : pageOrd
          (Placement.mk w.pages.length form w.cursor.1 (w.cursor.2 - PROXY_HEIGHT))
          ⟨w.pages.length, 0, w.cursor.1 + PROXY_WIDTH + w.cardMargin,
            w.cursor.2 - PROXY_HEIGHT⟩ := by
        refine Or.inr ⟨rfl, Or.inr ⟨rfl, ?_⟩⟩
        show w.cursor.1 < w.cursor.1 + PROXY_WIDTH + w.cardMargin
        rw [hI.cm0]
        linarith [PW_pos]
      rcases List.mem_append.mp hp with hmem | hmem
      · exact pageOrd_trans (hI.front p hmem) hef
      · simp only [List.mem_singleton] at hmem
        subst hmem
        exact hef

lemma LInv_addObject {w : WState} {c : Bytes} {n : Nat} {w' : WState}
    (h : w.addObject c true = .ok (n, w')) (hI : LInv w) : LInv w' := by
  have hw' := congrArg Prod.snd (addObject_true_ok h).2
  dsimp only at hw'
  subst hw'
  exact LInv_transfer hI rfl rfl rfl rfl rfl rfl rfl

lemma LInv_addImageForm {C : Codec} {w : WState} {img : PdfImage} {n : Nat} {w' : WState}
    (h : w.addImageForm C img = .ok (n, w')) (hI : LInv w) : LInv w' := by
  unfold WState.addImageForm at h
  split at h
  · exact absurd h (by simp)
  · rename_i maskNum w1 heq1
    split at h
    · exact absurd h (by simp)
    · rename_i colorNum w2 heq2
      have h1 : LInv w1 := LInv_addObject heq1 hI
      have h2 : LInv w2 := LInv_addObject heq2 h1
      obtain ⟨-, rfl⟩ : _ ∧ _ = w' := Prod.mk.injEq .. ▸ Except.ok.inj h
      exact LInv_transfer h2 rfl rfl rfl rfl rfl rfl rfl

lemma LInv_placeLoop {C : Codec} {form : Nat} :
    ∀ {n : Nat} {w w' : WState}, placeLoop C form n w = .ok w' → LInv w → LInv w'
  | 0, _, _, h, hI => by
    obtain rfl : _ = _ := Except.ok.inj h
    exact hI
  | n + 1, w, w', h, hI => by
    unfold placeLoop at h
    split at h
    · exact absurd h (by simp)
    · rename_i w1 heq1
      exact LInv_placeLoop h (LInv_addProxyOne heq1 hI)

lemma LInv_addProxy {C : Codec} {w : WState} {img : PdfImage} {a : Int} {w' : WState}
    (h : w.addProxy C img a = .ok w') (hI : LInv w) : LInv w' := by
  unfold WState.addProxy at h
  split at h
  · obtain rfl : _ = w' := Except.ok.inj h
    exact hI
  · split at h
    · exact absurd h (by simp)
    · rename_i form w1 heq1
      exact LInv_placeLoop h (LInv_addImageForm heq1 hI)

lemma LInv_runCmds {C : Codec} :
    ∀ {cmds : List (PdfImage × Int)} {w w' : WState},
      runCmds C w cmds = .ok w' → LInv w → LInv w'
  | [], _, _, h, hI => by
    obtain rfl : _ = _ := Except.ok.inj h
    exact hI
  | (img, a) :: rest, w, w', h, hI => by
    unfold runCmds at h
    split at h
    · exact absurd h (by simp)
    · rename_i w1 heq1
      exact LInv_runCmds h (LInv_addProxy heq1 hI)

lemma LInv_openDoc {w w' : WState} (h : w.openDoc = .ok w')
    (hc : w.stream.closed = false) (hI : LInv w) : LInv w' := by
  rw [openDoc_eq w hc] at h
  obtain rfl : _ = w' := Except.ok.inj h
  exact LInv_transfer hI rfl rfl rfl rfl rfl rfl rfl

lemma step_eq_of_close {i j : ℕ} {s : ℚ} (hs : 0 < s)
    (h1 : (i : ℚ) * s < (j : ℚ) * s + s) (h2 : (j : ℚ) * s < (i : ℚ) * s + s) : i = j := by
  have hij : i < j + 1 := by
    have ha : (i : ℚ) * s < ((j + 1 : ℕ) : ℚ) * s := by push_cast; linarith
    have hb := (mul_lt_mul_right hs).mp ha
    exact_mod_cast hb
  have hji : j < i + 1 := by
    have ha : (j : ℚ) * s < ((i + 1 : ℕ) : ℚ) * s := by push_cast; linarith
    have hb := (mul_lt_mul_right hs).mp ha
    exact_mod_cast hb
  omega

lemma noOverlap_of_LInv {w : WState} (hI : LInv w) :
    w.placedLog.Pairwise (fun p q => p.page = q.page → ¬ overlap p q) := by
  refine List.Pairwise.imp_of_mem ?_ hI.hord
  intro p q hp hq hpq hpage hov
  obtain ⟨-, ⟨ip, hxp⟩, ⟨jp, hyp⟩⟩ := hI.plog p hp
  obtain ⟨-, ⟨iq, hxq⟩, ⟨jq, hyq⟩⟩ := hI.plog q hq
  obtain ⟨o1, o2, o3, o4⟩ := hov
  have hxe : p.x = q.x := by
    have hieq : ip = iq := by
      refine step_eq_of_close PW_pos ?_ ?_
      · rw [hxp, hxq] at o1
        linarith
      · rw [hxp, hxq] at o2
        linarith
    rw [hxp, hxq, hieq]
  have hye : p.y = q.y := by
    have hjeq : jp = jq := by
      refine step_eq_of_close PH_pos ?_ ?_
      · rw [hyp, hyq] at o4
        linarith
      · rw [hyp, hyq] at o3
        linarith
    rw [hyp, hyq, hjeq]
  rcases hpq with hlt | ⟨-, hlex⟩
  · exact absurd hpage (Nat.ne_of_lt hlt)
  · rcases hlex with hy | ⟨-, hx⟩
    · exact lt_irrefl _ (hye ▸ hy)
    · exact lt_irrefl _ (hxe ▸ hx)

/-- C3 (amended): for a writer constructed with card margin 0 (the default),
after any sequence of `add_proxy` calls every recorded placement's card
footprint lies inside `[margin, page_width - margin] × [margin, page_height -
margin]` (with the clamped margin), and no two placements assigned to the
same page overlap. -/
theorem c3_amended {C : Codec} {ps : ℚ × ℚ} {M : ℚ} {cs : Bool}
    {cmds : List (PdfImage × Int)} {w : WState}
    (h : runAfterOpen C (mkWriter ps M 0 cs) cmds = .ok w) :
    (∀ p ∈ w.placedLog, inRect w.pageW w.pageH w.margin p) ∧
    w.placedLog.Pairwise (fun p q => p.page = q.page → ¬ overlap p q) := by
  have hL : LInv w := by
    unfold runAfterOpen at h
    split at h
    · exact absurd h (by simp)
    · rename_i w0 heq0
      exact LInv_runCmds h (LInv_openDoc heq0 rfl (LInv_mkWriter ps M cs))
  exact ⟨fun p hp => (hL.plog p hp).1, noOverlap_of_LInv hL⟩

unseal Rat.mul Rat.inv Rat.add Rat.sub Rat.ofScientific in
/-- C3 (amended), witness: the amended statement instantiated on a concrete
four-card run. -/
theorem c3_amended_witness :
    (∀ p ∈ (okState (mkWriter (595, 842) (1 / 10) 0 true) c3wRun).placedLog,
      inRect (okState (mkWriter (595, 842) (1 / 10) 0 true) c3wRun).pageW
        (okState (mkWriter (595, 842) (1 / 10) 0 true) c3wRun).pageH
        (okState (mkWriter (595, 842) (1 / 10) 0 true) c3wRun).margin p) ∧
    (okState (mkWriter (595, 842) (1 / 10) 0 true) c3wRun).placedLog.Pairwise
      (fun p q => p.page = q.page → ¬ overlap p q) :=
  @c3_amended idCodec (595, 842) (1 / 10) true [(img0, 4)]
    (okState (mkWriter (595, 842) (1 / 10) 0 true) c3wRun) (by rfl)

unseal Rat.mul Rat.inv Rat.add Rat.sub Rat.ofScientific in
/-- C3, counterexample: with a positive card margin (1 inch) the vertical
double-ahead check, which subtracts the card margin, lets a row start too
low: the 5th placement of a 595×842-page run sits at y = −326/5, below the
bottom margin 36/5 (indeed below the page itself), violating the claimed
containment. -/
theorem c3_counterexample :
    isOkE c3cexRun = true ∧
    (mkWriter (595, 842) (1 / 10) 1 true).margin = 36 / 5 ∧
    ∃ p ∈ (okState (mkWriter (595, 842) (1 / 10) 1 true) c3cexRun).placedLog,
      p.y < (mkWriter (595, 842) (1 / 10) 1 true).margin := by
  refine ⟨by decide, by decide,
    ⟨Placement.mk 0 4 (36 / 5) (-326 / 5), by decide, by decide⟩⟩

/-! ### C7, C8, C10: image forms and placements -/

lemma addImageForm_logs {C : Codec} {w : WState} {img : PdfImage} {n : Nat} {w' : WState}
    (h : w.addImageForm C img = .ok (n, w')) :
    n = w.counter + 2 ∧ w'.counter = w.counter + 2 ∧
    w'.imageLog = w.imageLog ++ [(w.counter + 1, w.counter + 2)] ∧
    w'.placedLog = w.placedLog ∧ w'.pages = w.pages ∧ w'.cursor = w.cursor := by
  unfold WState.addImageForm at h
  split at h
  · exact absurd h (by simp)
  · rename_i maskNum w1 heq1
    split at h
    · exact absurd h (by simp)
    · rename_i colorNum w2 heq2
      obtain ⟨-, hr1⟩ := addObject_true_ok heq1
      have hm : maskNum = w.counter + 1 := congrArg Prod.fst hr1
      have hw1 := congrArg Prod.snd hr1
      dsimp only at hw1
      subst hw1
      obtain ⟨-, hr2⟩ := addObject_true_ok heq2
      have hc : colorNum = w.counter + 1 + 1 := congrArg Prod.fst hr2
      have hw2 := congrArg Prod.snd hr2
      dsimp only at hw2
      subst hw2
      have hp := Except.ok.inj h
      rw [Prod.ext_iff] at hp
      obtain ⟨hn, hw'⟩ := hp
      dsimp only at hn hw'
      subst hw'
      subst hm
      subst hc
      refine ⟨by omega, rfl, ?_, rfl, rfl, rfl⟩
      simp

lemma addProxyOne_logs {C : Codec} {w : WState} {form : Nat} {w' : WState}
    (h : w.addProxyOne C form = .ok w') :
    w'.imageLog = w.imageLog ∧
    w'.placedLog = w.placedLog ++
      [Placement.mk w.pages.length form w.cursor.1 (w.cursor.2 - PROXY_HEIGHT)] ∧
    w.counter ≤ w'.counter := by
  unfold WState.addProxyOne at h
  dsimp only at h
  split at h
  · split at h
    · obtain ⟨-, -, -, -, -, -, e7, e8, -, -, ec⟩ := flushPage_layout h
      have hc : w'.counter = w.counter + 2 := ec
      exact ⟨e8, e7, by omega⟩
    · obtain rfl : _ = w' := Except.ok.inj h
      exact ⟨rfl, rfl, le_refl _⟩
  · obtain rfl : _ = w' := Except.ok.inj h
    exact ⟨rfl, rfl, le_refl _⟩

lemma placeLoop_logs {C : Codec} {form : Nat} :
    ∀ {n : Nat} {w w' : WState}, placeLoop C form n w = .ok w' →
      w'.imageLog = w.imageLog ∧
      (∃ l, w'.placedLog = w.placedLog ++ l ∧ l.length = n ∧ ∀ p ∈ l, p.form = form) ∧
      w.counter ≤ w'.counter
  | 0, w, w', h => by
    obtain rfl : _ = _ := Except.ok.inj h
    exact ⟨rfl, ⟨[], by simp, rfl, by simp⟩, le_refl _⟩
  | n + 1, w, w', h => by
    unfold placeLoop at h
    split at h
    · exact absurd h (by simp)
    · rename_i w1 heq1
      obtain ⟨hi1, hp1, hc1⟩ := addProxyOne_logs heq1
      obtain ⟨hi2, ⟨l, hl, hlen, hform⟩, hc2⟩ := placeLoop_logs h
      refine ⟨by rw [hi2, hi1],
        ⟨Placement.mk w.pages.length form w.cursor.1 (w.cursor.2 - PROXY_HEIGHT) :: l,
          ?_, by simp [hlen], ?_⟩, le_trans hc1 hc2⟩
      · rw [hl, hp1]
        simp
      · intro p hp
        rcases List.mem_cons.mp hp with rfl | hmem
        · rfl
        · exact hform p hmem

lemma addProxy_pos_spec {C : Codec} {w : WState} {img : PdfImage} {a : Int} {w' : WState}
    (ha : 1 ≤ a) (h : w.addProxy C img a = .ok w') :
    w'.imageLog = w.imageLog ++ [(w.counter + 1, w.counter + 2)] ∧
    (∃ l, w'.placedLog = w.placedLog ++ l ∧ l.length = a.toNat ∧
      ∀ p ∈ l, p.form = w.counter + 2) ∧
    w.counter + 2 ≤ w'.counter := by
  unfold WState.addProxy at h
  rw [if_neg (by omega)] at h
  split at h
  · exact absurd h (by simp)
  · rename_i form w1 heq1
    obtain ⟨hform, hcnt, hlog, hpl, -, -⟩ := addImageForm_logs heq1
    obtain ⟨hi2, ⟨l, hl, hlen, hforms⟩, hc2⟩ := placeLoop_logs h
    subst hform
    refine ⟨by rw [hi2, hlog], ⟨l, by rw [hl, hpl], hlen, hforms⟩, by omega⟩

/-- C7: `add_proxy` with `amount ≤ 0` is a complete no-op (the state, hence
registry, cursor and pending placements, is unchanged); with `amount ≥ 1` it
builds the image's two XObjects exactly once (one mask/color pair is
registered) and then records exactly `amount` placements, every one of them
referencing that single color object. -/
theorem c7_add_proxy (C : Codec) (w : WState) (img : PdfImage) (amount : Int) :
    (amount ≤ 0 → w.addProxy C img amount = .ok w) ∧
    (∀ w', 1 ≤ amount → w.addProxy C img amount = .ok w' →
      w'.imageLog = w.imageLog ++ [(w.counter + 1, w.counter + 2)] ∧
      ∃ l, w'.placedLog = w.placedLog ++ l ∧ l.length = amount.toNat ∧
        ∀ p ∈ l, p.form = w.counter + 2) := by
  constructor
  · intro ha
    unfold WState.addProxy
    rw [if_pos ha]
  · intro w' ha h
    obtain ⟨h1, h2, -⟩ := addProxy_pos_spec ha h
    exact ⟨h1, h2⟩

unseal Rat.mul Rat.inv Rat.add Rat.sub Rat.ofScientific in
/-- C7, witness: on the freshly opened writer, `add_proxy` with amount 0 is a
no-op, and with amount 2 it registers one mask/color pair (numbers 3 and 4)
and records two placements referencing color object 4. -/
theorem c7_add_proxy_witness :
    (c8w.addProxy idCodec img0 0 = .ok c8w) ∧
    ((okState c8w (c8w.addProxy idCodec img0 2)).imageLog =
        c8w.imageLog ++ [(c8w.counter + 1, c8w.counter + 2)] ∧
      ∃ l, (okState c8w (c8w.addProxy idCodec img0 2)).placedLog =
          c8w.placedLog ++ l ∧ l.length = (2 : Int).toNat ∧
        ∀ p ∈ l, p.form = c8w.counter + 2) := by
  constructor
  · exact (c7_add_proxy idCodec c8w img0 0).1 (by decide)
  · exact (c7_add_proxy idCodec c8w img0 2).2
      (okState c8w (c8w.addProxy idCodec img0 2)) (by decide) (by rfl)

/-- C8: `_add_image_form` first registers and immediately writes the mask
stream object (payload: the raw alpha plane, dictionary: 8 bits/component,
DeviceGray, Decode [0 1], height, width, Subtype Image, Type XObject — see
`maskDict`, which contains no reference to any object), and then registers
and writes the color stream object (payload: the interleaved RGB plane,
dictionary: 8 bits/component, DeviceRGB, height, width, Subtype Image, Type
XObject and `/SMask` referencing the mask object — see `colorDict`).  The
mask is written first: the color object's offset lies strictly beyond the
mask object's bytes. -/
theorem c8_mask_color (C : Codec) (w : WState) (img : PdfImage)
    (h : w.stream.closed = false) :
    ∃ w', w.addImageForm C img = .ok (w.counter + 2, w') ∧
      w'.objects = w.objects ++
        [⟨w.counter + 1, w.stream.data.length, none⟩,
         ⟨w.counter + 2,
           (w.stream.data ++ (headerBytes (w.counter + 1) ++
             pdfStreamBytes C img.alpha (maskDict img) ++ bs "endobj\n")).length, none⟩] ∧
      w'.stream.data = w.stream.data ++
        (headerBytes (w.counter + 1) ++ pdfStreamBytes C img.alpha (maskDict img) ++
          bs "endobj\n") ++
        (headerBytes (w.counter + 2) ++
          pdfStreamBytes C img.rgb (colorDict img (w.counter + 1)) ++ bs "endobj\n") ∧
      w'.imageLog = w.imageLog ++ [(w.counter + 1, w.counter + 2)] ∧
      w.stream.data.length <
        (w.stream.data ++ (headerBytes (w.counter + 1) ++
          pdfStreamBytes C img.alpha (maskDict img) ++ bs "endobj\n")).length := by
  unfold WState.addImageForm
  rw [addObject_true_eq w (pdfStreamBytes C img.alpha (maskDict img)) h]
  dsimp only
  rw [addObject_true_eq
    { w with
      counter := w.counter + 1,
      objects := w.objects ++ [⟨w.counter + 1, w.stream.data.length, none⟩],
      stream := { w.stream with
                  data := w.stream.data ++
                    (headerBytes (w.counter + 1) ++
                      pdfStreamBytes C img.alpha (maskDict img) ++ bs "endobj\n") } }
    (pdfStreamBytes C img.rgb (colorDict img (w.counter + 1))) h]
  dsimp only
  refine ⟨_, rfl, by simp, rfl, by simp, ?_⟩
  simp only [List.length_append]
  have h1 := headerBytes_len_pos (w.counter + 1)
  omega

/-- C8, witness: the mask/color structure theorem instantiated on the freshly
opened writer and the concrete image. -/
theorem c8_mask_color_witness :
    ∃ w', c8w.addImageForm idCodec img0 = .ok (c8w.counter + 2, w') ∧
      w'.objects = c8w.objects ++
        [⟨c8w.counter + 1, c8w.stream.data.length, none⟩,
         ⟨c8w.counter + 2,
           (c8w.stream.data ++ (headerBytes (c8w.counter + 1) ++
             pdfStreamBytes idCodec img0.alpha (maskDict img0) ++ bs "endobj\n")).length,
           none⟩] ∧
      w'.stream.data = c8w.stream.data ++
        (headerBytes (c8w.counter + 1) ++ pdfStreamBytes idCodec img0.alpha (maskDict img0) ++
          bs "endobj\n") ++
        (headerBytes (c8w.counter + 2) ++
          pdfStreamBytes idCodec img0.rgb (colorDict img0 (c8w.counter + 1)) ++
          bs "endobj\n") ∧
      w'.imageLog = c8w.imageLog ++ [(c8w.counter + 1, c8w.counter + 2)] ∧
      c8w.stream.data.length <
        (c8w.stream.data ++ (headerBytes (c8w.counter + 1) ++
          pdfStreamBytes idCodec img0.alpha (maskDict img0) ++ bs "endobj\n")).length :=
  c8_mask_color idCodec c8w img0 rfl

/-- C10: two `add_proxy` calls with the same image each build and register a
fresh mask/color pair — XObjects are reused only among the copies of a single
call; there is no cross-call deduplication.  The second call's placements all
reference the second (strictly larger-numbered) color object. -/
theorem c10_no_dedup {C : Codec} {w w1 w2 : WState} {img : PdfImage} {a1 a2 : Int}
    (ha1 : 1 ≤ a1) (ha2 : 1 ≤ a2)
    (h1 : w.addProxy C img a1 = .ok w1) (h2 : w1.addProxy C img a2 = .ok w2) :
    w2.imageLog = w.imageLog ++
      [(w.counter + 1, w.counter + 2), (w1.counter + 1, w1.counter + 2)] ∧
    w.counter + 2 < w1.counter + 2 ∧
    ∃ l, w2.placedLog = w1.placedLog ++ l ∧ l.length = a2.toNat ∧
      ∀ p ∈ l, p.form = w1.counter + 2 := by
  obtain ⟨e1, -, ec1⟩ := addProxy_pos_spec ha1 h1
  obtain ⟨e2, hl2, -⟩ := addProxy_pos_spec ha2 h2
  refine ⟨?_, by omega, hl2⟩
  rw [e2, e1]
  simp

unseal Rat.mul Rat.inv Rat.add Rat.sub Rat.ofScientific in
/-- C10, witness: two identical two-copy calls on the freshly opened writer
register two distinct mask/color pairs. -/
theorem c10_no_dedup_witness :
    (okState c8w ((okState c8w (c8w.addProxy idCodec img0 2)).addProxy idCodec img0 2)).imageLog =
      c8w.imageLog ++
        [(c8w.counter + 1, c8w.counter + 2),
         ((okState c8w (c8w.addProxy idCodec img0 2)).counter + 1,
          (okState c8w (c8w.addProxy idCodec img0 2)).counter + 2)] ∧
    c8w.counter + 2 < (okState c8w (c8w.addProxy idCodec img0 2)).counter + 2 ∧
    ∃ l, (okState c8w ((okState c8w (c8w.addProxy idCodec img0 2)).addProxy idCodec img0 2)).placedLog =
        (okState c8w (c8w.addProxy idCodec img0 2)).placedLog ++ l ∧
      l.length = (2 : Int).toNat ∧
      ∀ p ∈ l, p.form = (okState c8w (c8w.addProxy idCodec img0 2)).counter + 2 :=
  @c10_no_dedup idCodec c8w (okState c8w (c8w.addProxy idCodec img0 2))
    (okState c8w ((okState c8w (c8w.addProxy idCodec img0 2)).addProxy idCodec img0 2))
    img0 2 2 (by decide) (by decide) (by rfl) (by rfl)

/-! ### C9: content release and repeated saves -/

lemma write_ok_released {o o' : IndObj} {st st' : StreamSt}
    (h : o.write st = .ok (o', st')) : o'.content = none := by
  unfold IndObj.write at h
  split at h
  · exact absurd h (by simp)
  · split at h
    · exact absurd h (by simp)
    · have hp := Except.ok.inj h
      rw [Prod.ext_iff] at hp
      obtain ⟨hpr, -⟩ := hp
      dsimp only at hpr
      subst hpr
      rfl

lemma write_deleted_open {o : IndObj} {st : StreamSt}
    (hc : o.content = none) (hcl : st.closed = false) :
    o.write st = .error (.attributeError, { o with offset := st.data.length },
      { st with data := st.data ++ headerBytes o.number }) := by
  simp [IndObj.write, hc, hcl]

lemma write_closed {o : IndObj} {st : StreamSt} (hcl : st.closed = true) :
    o.write st = .error (.streamClosed, o, st) := by
  simp [IndObj.write, hcl]

lemma save_ok_state {C : Codec} {w wf : WState} (h : w.save C = .ok wf) :
    wf.closeStream = w.closeStream ∧ wf.proxyPositions = [] ∧ wf.objects ≠ [] ∧
    (w.closeStream = true → wf.stream.closed = true) := by
  unfold WState.save at h
  split at h
  · exact absurd h (by simp)
  · rename_i w1 heq1
    have hw1 : w1.closeStream = w.closeStream ∧ w1.proxyPositions = [] := by
      rcases heq1 with heq1
      split at heq1
      · rename_i hpp
        obtain rfl : _ = w1 := Except.ok.inj heq1
        exact ⟨rfl, hpp⟩
      · obtain ⟨-, -, -, -, -, -, -, -, e9, e10, -⟩ := flushPage_layout heq1
        exact ⟨e9, e10⟩
    split at h
    · exact absurd h (by simp)
    · rename_i pr tl hcons
      split at h
      · exact absurd h (by simp)
      · rename_i pr' st' heq2
        unfold IndObj.write at heq2
        dsimp only at heq2
        split at heq2
        · exact absurd heq2 (by simp)
        · rename_i hcl
          have hp := Except.ok.inj heq2
          rw [Prod.ext_iff] at hp
          obtain ⟨hpr', hst'⟩ := hp
          dsimp only at hpr' hst'
          subst hpr'
          subst hst'
          unfold WState.writeTail at h
          dsimp only at h
          rw [if_neg hcl] at h
          dsimp only at h
          obtain rfl : _ = wf := Except.ok.inj h
          refine ⟨?_, ?_, ?_, ?_⟩
          · split
            · exact hw1.1
            · exact hw1.1
          · split
            · exact hw1.2
            · exact hw1.2
          · split
            · simp
            · simp
          · intro hcs
            have hc : w1.closeStream = true := by rw [hw1.1, hcs]
            rw [if_pos hc]

/-- C9 (amended): writing an `IndirectObject` releases its content payload
(afterwards only the object number and the captured offset remain).  A second
write of the same object without reassigning its content does not fail
cleanly before output: on an open stream it clobbers the stored offset and
emits the object header `<n> 0 obj\n` again before raising
(`AttributeError`) on the deleted content, and on a closed stream it raises
(`ValueError`, from `tell()`) before the content is even consulted.  `save`
reassigns the Pages-root's content before writing it, so a second `save` is
blocked only by the stream close: with `close_stream` set it fails on the
closed stream, and with `close_stream` cleared it completes, serializing the
Pages-root a second time (see the counterexample). -/
theorem c9_amended :
    (∀ (o o' : IndObj) (st st' : StreamSt), o.write st = .ok (o', st') →
      o'.content = none) ∧
    (∀ (o : IndObj) (st2 : StreamSt), o.content = none → st2.closed = false →
      o.write st2 = .error (.attributeError, { o with offset := st2.data.length },
        { st2 with data := st2.data ++ headerBytes o.number })) ∧
    (∀ (o : IndObj) (st2 : StreamSt), st2.closed = true →
      o.write st2 = .error (.streamClosed, o, st2)) ∧
    (∀ (C : Codec) (w w1 : WState), w.closeStream = true → w.save C = .ok w1 →
      w1.save C = .error .streamClosed) := by
  refine ⟨?_, ?_, ?_, ?_⟩
  · intro o o' st st' h
    exact write_ok_released h
  · intro o st2 hc hcl
    exact write_deleted_open hc hcl
  · intro o st2 hcl
    exact write_closed hcl
  · intro C w w1 hcs h
    obtain ⟨hcs1, hpp1, hne1, hcl⟩ := save_ok_state h
    have hclosed : w1.stream.closed = true := hcl hcs
    obtain ⟨pr, tl, hobj⟩ := List.exists_cons_of_ne_nil hne1
    unfold WState.save
    rw [if_pos hpp1]
    dsimp only
    rw [hobj]
    dsimp only
    unfold IndObj.write
    dsimp only
    rw [if_pos hclosed]

/-- C9, counterexample: with `close_stream=False`, a second `save()` on an
already saved writer completes successfully (it reassigns the Pages-root's
content and serializes it again), refuting "save() can complete successfully
at most once on a writer". -/
theorem c9_counterexample : isOkE c9cexRun = true := by decide

/-- C9 (amended), witness: a concrete write releases the content; a released
object written again on an open stream emits its header again (with the
stored offset clobbered from 5 to 0) before the attribute error; a closed
stream errors first even with content present; and a concrete default
(`close_stream=True`) writer refuses a second save. -/
theorem c9_amended_witness :
    (⟨1, 0, none⟩ : IndObj).content = none ∧
    IndObj.write ⟨1, 5, none⟩ ⟨[], false⟩ =
      .error (.attributeError, ⟨1, 0, none⟩, ⟨[] ++ headerBytes 1, false⟩) ∧
    IndObj.write ⟨2, 7, some [1]⟩ ⟨[3], true⟩ =
      .error (.streamClosed, ⟨2, 7, some [1]⟩, ⟨[3], true⟩) ∧
    (okState (mkWriter (595, 842) (1 / 10) 0 true)
        (runDoc idCodec (595, 842) (1 / 10) 0 true [])).save idCodec =
      .error .streamClosed := by
  refine ⟨?_, ?_, ?_, ?_⟩
  · exact c9_amended.1 ⟨1, 0, some []⟩ ⟨1, 0, none⟩ ⟨[], false⟩
      ⟨[] ++ (headerBytes 1 ++ [] ++ bs "endobj\n"), false⟩ (by rfl)
  · exact c9_amended.2.1 ⟨1, 5, none⟩ ⟨[], false⟩ rfl rfl
  · exact c9_amended.2.2.1 ⟨2, 7, some [1]⟩ ⟨[3], true⟩ rfl
  · exact c9_amended.2.2.2 idCodec
      (okState (mkWriter (595, 842) (1 / 10) 0 true)
        (runAfterOpen idCodec (mkWriter (595, 842) (1 / 10) 0 true) []))
      (okState (mkWriter (595, 842) (1 / 10) 0 true)
        (runDoc idCodec (595, 842) (1 / 10) 0 true []))
      (by rfl) (by rfl)

end ProxyPdf
